import Mathlib

/-!
Shallow embedding of the asynchronous Google Drive upload service (the
progress-tracking Express route file).  The definitions below translate, one
for one, the in-memory progress store `uploadProgressMap`, the store mutations
performed by the `POST /upload` handler and its detached background task, the
progress-stream percentage listener, the temp-file cleanup, the
`GET /upload/progress/:uploadId` handler and the `POST /upload-multiple`
handler.  Theorems about these definitions settle the specification claims.
-/

namespace DriveUpload

/-- Status strings stored in the `status` field of a progress record:
`'pending'`, `'in_progress'`, `'done'`, `'error'`. -/
inductive UploadStatus where
  | pending
  | in_progress
  | done
  | error
deriving DecidableEq

/-- Provider file metadata selected by `fields: 'id,name,webViewLink,webContentLink'`
and copied into the `file` object of the done record. -/
structure DriveFileInfo where
  id : String
  name : String
  viewLink : String
  downloadLink : String
deriving DecidableEq

/-- One entry of `uploadProgressMap`: the `status` and `progress` fields plus the
optional `file` / `error` keys written by the terminal assignments. -/
structure UploadRecord where
  status : UploadStatus
  progress : Nat
  file : Option DriveFileInfo
  error : Option String
deriving DecidableEq

/-- The record inserted synchronously by
`uploadProgressMap[uploadId] = { progress: 0, status: 'pending' }` (line 187). -/
def pendingRecord : UploadRecord :=
  { status := .pending, progress := 0, file := none, error := none }

/-- JavaScript `n || 0` on a nonnegative number: `0` is falsy and is replaced by
`0`, every other number is truthy and kept. -/
def jsOr0 (n : Nat) : Nat := if n = 0 then 0 else n

/-- The record assigned on success (lines 228-237): `status: 'done'`,
`progress: 100` and the `file` object. -/
def doneRecord (d : DriveFileInfo) : UploadRecord :=
  { status := .done, progress := 100, file := some d, error := none }

/-- The record assigned in the catch branch (lines 243-247): `status: 'error'`,
`progress: uploadProgressMap[uploadId].progress || 0` and the error message. -/
def errorRecord (p : Nat) (msg : String) : UploadRecord :=
  { status := .error, progress := jsOr0 p, file := none, error := some msg }

/-- The in-memory progress store `uploadProgressMap`, keyed by upload id. -/
abbrev Store := String → Option UploadRecord

/-- The store at process start: `const uploadProgressMap = {}`. -/
def emptyStore : Store := fun _ => none

/-- One progress-stream notification.  The listener consumes only the
notification's percentage field, so only the data needed to compute it is
modelled: a throttled intermediate update carries the cumulative byte count,
and the final update emitted once at end of stream is flagged `ended`. -/
inductive PsEvent where
  | update (transferred : Nat)
  | ended
deriving DecidableEq

/-- Percentage field of a notification, as the dependency computes it:
`ended ? 100 : (length ? transferred / length * 100 : 0)` — the end-of-stream
update carries 100 regardless of the declared length, an intermediate update
carries `transferred / length * 100`, guarded to `0` when the declared length
is `0`, so no division by zero ever occurs. -/
def psPercentage (length : Nat) : PsEvent → ℚ
  | .update transferred =>
      if length = 0 then 0 else (transferred : ℚ) * 100 / (length : ℚ)
  | .ended => 100

/-- JavaScript `Math.round` on a nonnegative number: round half up. -/
def jsMathRound (q : ℚ) : ℕ := ⌊q + 1/2⌋₊

/-- Value stored by the listener
`uploadProgressMap[uploadId].progress = Math.round(p.percentage)` (line 211)
on one notification of a stream of declared total `length`. -/
def listenerPct (length : Nat) (e : PsEvent) : Nat :=
  jsMathRound (psPercentage length e)

/-- Notifications of one stream: the throttled intermediate updates in byte
order, then the single final `ended` update when the stream ran to its end. -/
def streamEvents (bs : List Nat) (reachedEnd : Bool) : List PsEvent :=
  bs.map PsEvent.update ++ if reachedEnd then [PsEvent.ended] else []

/-- The mutations of `uploadProgressMap` present in the source, as labelled
operations: the synchronous insert (line 187), the in-progress flag (line 201),
the listener write (line 211), the done assignment (lines 228-237) and the
error assignment (lines 243-247). -/
inductive StoreOp where
  | create (id : String)
  | setInProgress (id : String)
  | setProgress (id : String) (p : Nat)
  | finishDone (id : String) (d : DriveFileInfo)
  | finishError (id : String) (msg : String)
deriving DecidableEq

/-- The map key an operation writes to. -/
def StoreOp.targets : StoreOp → String
  | .create id => id
  | .setInProgress id => id
  | .setProgress id _ => id
  | .finishDone id _ => id
  | .finishError id _ => id

/-- Effect of one operation on the record stored under its own key.  Field
mutation of a missing record (a TypeError in JavaScript, unreachable in the
handler's runs) is modelled as a no-op; the two whole-record assignments
(`create`, `finishDone`) replace whatever is stored; `finishError` reads the
old record to preserve `progress` via the code's `progress || 0`. -/
def applyOpR (r : Option UploadRecord) : StoreOp → Option UploadRecord
  | .create _ => some pendingRecord
  | .setInProgress _ => r.map fun u => { u with status := .in_progress }
  | .setProgress _ p => r.map fun u => { u with progress := p }
  | .finishDone _ d => some (doneRecord d)
  | .finishError _ msg => r.map fun u => errorRecord u.progress msg

/-- Effect of one operation on the whole store: only the targeted key changes. -/
def applyOp (s : Store) (op : StoreOp) : Store :=
  fun id => if op.targets = id then applyOpR (s id) op else s id

/-- Left-to-right application of a list of operations to the store. -/
def applyOps (s : Store) : List StoreOp → Store
  | [] => s
  | op :: ops => applyOps (applyOp s op) ops

/-- Left-to-right application of a list of operations to a single record. -/
def runOpsR (r : Option UploadRecord) : List StoreOp → Option UploadRecord
  | [] => r
  | op :: ops => runOpsR (applyOpR r op) ops

/-- The operations of a trace that write to the given key, in order. -/
def opsFor (id : String) (ops : List StoreOp) : List StoreOp :=
  ops.filter fun op => op.targets == id

/-- Store operations performed, in order, by one detached background task
(lines 199-249): the in-progress flag, one listener write per progress
notification, then exactly one terminal assignment chosen by the transfer
outcome. -/
def taskOps (id : String) (events : List Nat) (oc : Except String DriveFileInfo) :
    List StoreOp :=
  StoreOp.setInProgress id ::
    (events.map (StoreOp.setProgress id) ++
      [match oc with
       | .ok d => StoreOp.finishDone id d
       | .error msg => StoreOp.finishError id msg])

/-- All operations one accepted submission performs on its own id: the
synchronous insert followed by the detached task's operations. -/
def idOps (id : String) (events : List Nat) (oc : Except String DriveFileInfo) :
    List StoreOp :=
  StoreOp.create id :: taskOps id events oc

/-- Progress values the listener feeds to the store for a file of the given
size, one per stream notification. -/
def listenerEvents (fileSize : Nat) (es : List PsEvent) : List Nat :=
  es.map (listenerPct fileSize)

/-- Terminal statuses: `done` and `error`. -/
def UploadStatus.isTerminal : UploadStatus → Bool
  | .done => true
  | .error => true
  | _ => false

/-- Terminal test lifted to an optional record (a missing record is not
terminal). -/
def isTerminalO (r : Option UploadRecord) : Bool :=
  r.elim false fun u => u.status.isTerminal

/-- Successive values of one record along a list of operations, starting value
included. -/
def recTrace (r : Option UploadRecord) : List StoreOp → List (Option UploadRecord)
  | [] => [r]
  | op :: ops => r :: recTrace (applyOpR r op) ops

/-- Progress field of an optional record, `0` when missing. -/
def progressOf (r : Option UploadRecord) : Nat :=
  r.elim 0 UploadRecord.progress

/-- Sequence of progress values of one upload's record over its whole run. -/
def runProgressSeq (id : String) (events : List Nat)
    (oc : Except String DriveFileInfo) : List Nat :=
  (recTrace none (idOps id events oc)).map progressOf

/-- Decoded multer file handed to a handler: temp path, declared name,
declared MIME type, size in bytes. -/
structure MulterFile where
  path : String
  originalname : String
  mimetype : String
  size : Nat
deriving DecidableEq

/-- HTTP status and JSON body of the synchronous `POST /upload` response. -/
structure UploadAck where
  httpStatus : Nat
  success : Bool
  uploadId : Option String
  status : Option UploadStatus
  progress : Option Nat
  error : Option String
deriving DecidableEq

/-- Detached work scheduled by the handler after the response is sent. -/
structure TaskSpec where
  uploadId : String
  file : MulterFile
deriving DecidableEq

/-- Synchronous part of the `POST /upload` handler (lines 171-196): the
authentication check, the file check, the insert of the pending record and the
immediate acknowledgment; `uploadId` stands for the value of
`generateUploadId()`.  The returned store is the store at the moment the
response is sent; the detached task, if any, runs afterwards. -/
def postUpload (authed : Bool) (file : Option MulterFile) (uploadId : String)
    (s : Store) : Store × UploadAck × Option TaskSpec :=
  if !authed then
    (s,
     { httpStatus := 401, success := false, uploadId := none, status := none,
       progress := none,
       error := some "Not authenticated. Please visit /auth to authorize first." },
     none)
  else
    match file with
    | none =>
        (s,
         { httpStatus := 400, success := false, uploadId := none, status := none,
           progress := none, error := some "No file provided" },
         none)
    | some f =>
        (applyOp s (StoreOp.create uploadId),
         { httpStatus := 200, success := true, uploadId := some uploadId,
           status := some .pending, progress := some 0, error := none },
         some { uploadId := uploadId, file := f })

/-- HTTP status and JSON body of the `GET /upload/progress/:uploadId` response;
the `record` component is the spread of the stored record into the body. -/
structure ProgressResponse where
  httpStatus : Nat
  success : Bool
  uploadId : Option String
  record : Option UploadRecord
  error : Option String
deriving DecidableEq

/-- The `GET /upload/progress/:uploadId` handler (lines 253-267). -/
def getProgress (s : Store) (uploadId : String) : ProgressResponse :=
  match s uploadId with
  | none =>
      { httpStatus := 404, success := false, uploadId := none, record := none,
        error := some "Upload ID not found" }
  | some r =>
      { httpStatus := 200, success := true, uploadId := some uploadId,
        record := some r, error := none }

/-- Paths currently existing on disk. -/
abbrev FsState := List String

/-- The `fs.existsSync` check. -/
def fsExists (fs : FsState) (p : String) : Bool := fs.contains p

/-- The `fs.unlinkSync` call: the path no longer exists afterwards. -/
def fsUnlink (fs : FsState) (p : String) : FsState := fs.filter fun q => q != p

/-- Disk effect of the background task on the temp path, paired with the number
of unlink calls made on it: unconditional unlink on success (line 226), guarded
unlink in the catch branch (lines 240-242). -/
def taskFs (path : String) (oc : Except String DriveFileInfo) (fs : FsState) :
    FsState × Nat :=
  match oc with
  | .ok _ => (fsUnlink fs path, 1)
  | .error _ => if fsExists fs path then (fsUnlink fs path, 1) else (fs, 0)

/-- Whether a single transfer outcome is a success. -/
def ocSuccess : Except String DriveFileInfo → Bool
  | .ok _ => true
  | .error _ => false

/-- Per-file result object of `POST /upload-multiple` (lines 286-319). -/
structure MultiResult where
  success : Bool
  file : Option DriveFileInfo
  fileName : Option String
  error : Option String
deriving DecidableEq

/-- Result produced for one file of the bulk upload: the success object with the
provider metadata, or the failure object with the file name and message. -/
def perFileResult (f : MulterFile) (oc : Except String DriveFileInfo) : MultiResult :=
  match oc with
  | .ok d => { success := true, file := some d, fileName := none, error := none }
  | .error msg =>
      { success := false, file := none, fileName := some f.originalname,
        error := some msg }

/-- HTTP status and JSON body of the `POST /upload-multiple` response. -/
structure MultiResponse where
  httpStatus : Nat
  success : Bool
  successful : List MultiResult
  failed : List MultiResult
  error : Option String
deriving DecidableEq

/-- The `POST /upload-multiple` handler (lines 270-333): authentication check,
empty-file-list check, per-file fan-out, then the aggregate with
`success: failed.length === 0`.  `ocs` lists each file's transfer outcome. -/
def uploadMultiple (authed : Bool) (files : List MulterFile)
    (ocs : List (Except String DriveFileInfo)) : MultiResponse :=
  if !authed then
    { httpStatus := 401, success := false, successful := [], failed := [],
      error := some "Not authenticated. Please visit /auth to authorize first." }
  else if files.isEmpty then
    { httpStatus := 400, success := false, successful := [], failed := [],
      error := some "No files provided" }
  else
    let results := (files.zip ocs).map fun p => perFileResult p.1 p.2
    { httpStatus := 200,
      success := (results.filter fun r => !r.success).length == 0,
      successful := results.filter fun r => r.success,
      failed := results.filter fun r => !r.success,
      error := none }

/-- Sample file used by concrete instantiations. -/
def mfA : MulterFile :=
  { path := "uploads/tmp-a", originalname := "a.txt", mimetype := "text/plain",
    size := 4 }

/-- Second sample file used by concrete instantiations. -/
def mfB : MulterFile :=
  { path := "uploads/tmp-b", originalname := "b.png", mimetype := "image/png",
    size := 9 }

/-- Sample provider metadata used by concrete instantiations. -/
def dfA : DriveFileInfo :=
  { id := "drive-1", name := "a.txt", viewLink := "https://v/1",
    downloadLink := "https://d/1" }

/-- Sample store holding one failed upload, used by concrete instantiations. -/
def storeW : Store :=
  fun k => if k = "u1" then some (errorRecord 40 "boom") else none

/-- Helper: `n || 0` is the identity on a natural number. -/
theorem jsOr0_eq (n : Nat) : jsOr0 n = n := by
  unfold jsOr0
  split <;> omega

/-- Helper: closed form of the stored percentage of an intermediate update as
natural-number division. -/
theorem listenerPct_update_eq (N b : Nat) :
    listenerPct N (.update b) = if N = 0 then 0 else (200 * b + N) / (2 * N) := by
  have hps : psPercentage N (.update b) =
      if N = 0 then 0 else (b : ℚ) * 100 / (N : ℚ) := rfl
  unfold listenerPct jsMathRound
  rw [hps]
  by_cases hN : N = 0
  · rw [if_pos hN, if_pos hN]
    norm_num
  · rw [if_neg hN, if_neg hN]
    have hcast : (b : ℚ) * 100 / (N : ℚ) + 1/2 =
        ((200 * b + N : ℕ) : ℚ) / ((2 * N : ℕ) : ℚ) := by
      have hN' : (N : ℚ) ≠ 0 := Nat.cast_ne_zero.mpr hN
      push_cast
      field_simp
      ring
    rw [hcast, Nat.floor_div_nat]
    norm_cast

/-- Helper: the end-of-stream update always stores 100, whatever the declared
length. -/
theorem listenerPct_ended_eq (N : Nat) : listenerPct N .ended = 100 := by
  unfold listenerPct jsMathRound psPercentage
  rw [Nat.floor_eq_iff (by norm_num)]
  norm_num

/-- Helper: the stored percentage is monotone in the number of bytes seen. -/
theorem listenerPct_update_mono (N : Nat) {b b' : Nat} (h : b ≤ b') :
    listenerPct N (.update b) ≤ listenerPct N (.update b') := by
  rw [listenerPct_update_eq, listenerPct_update_eq]
  split
  · exact le_refl _
  · exact Nat.div_le_div_right (by omega)

/-- Helper: the stored percentage of an intermediate update never exceeds 100
while bytes seen stay within the declared length. -/
theorem listenerPct_update_le_100 (N b : Nat) (h : b ≤ N) :
    listenerPct N (.update b) ≤ 100 := by
  rw [listenerPct_update_eq]
  split
  · omega
  · rename_i hN
    have h1 : (200 * b + N) / (2 * N) ≤ (201 * N) / (2 * N) :=
      Nat.div_le_div_right (by omega)
    have h2 : (201 * N) / (2 * N) = 201 / 2 :=
      Nat.mul_div_mul_right 201 2 (Nat.pos_of_ne_zero hN)
    omega

/-- Helper: what a trace does at one key is decided by the operations that
target that key. -/
theorem applyOps_eq_runOpsR (tr : List StoreOp) (s : Store) (id : String) :
    applyOps s tr id = runOpsR (s id) (opsFor id tr) := by
  induction tr generalizing s with
  | nil => rfl
  | cons op ops ih =>
      by_cases h : op.targets = id
      · have hf : opsFor id (op :: ops) = op :: opsFor id ops := by
          simp [opsFor, List.filter_cons, h]
        rw [hf]
        show applyOps (applyOp s op) ops id = runOpsR (applyOpR (s id) op) (opsFor id ops)
        rw [ih (applyOp s op)]
        congr 1
        simp [applyOp, h]
      · have hf : opsFor id (op :: ops) = opsFor id ops := by
          simp [opsFor, List.filter_cons, h]
        rw [hf]
        show applyOps (applyOp s op) ops id = runOpsR (s id) (opsFor id ops)
        rw [ih (applyOp s op)]
        congr 1
        simp [applyOp, h]

/-- Helper: record-level runs compose over list append. -/
theorem runOpsR_append (r : Option UploadRecord) (l₁ l₂ : List StoreOp) :
    runOpsR r (l₁ ++ l₂) = runOpsR (runOpsR r l₁) l₂ := by
  induction l₁ generalizing r with
  | nil => rfl
  | cons op ops ih => simpa [runOpsR] using ih (applyOpR r op)

/-- Helper: key projection distributes over trace concatenation. -/
theorem opsFor_append (id : String) (l₁ l₂ : List StoreOp) :
    opsFor id (l₁ ++ l₂) = opsFor id l₁ ++ opsFor id l₂ :=
  List.filter_append _ _

/-- Helper: a run of listener writes only rewrites the progress field. -/
theorem runOpsR_setProgress_take (id : String) (es : List Nat) (u : UploadRecord)
    (j : Nat) :
    ∃ p, runOpsR (some u) ((es.map (StoreOp.setProgress id)).take j) =
      some { u with progress := p } := by
  induction es generalizing u j with
  | nil =>
      refine ⟨u.progress, ?_⟩
      cases u
      simp [runOpsR]
  | cons e es ih =>
      cases j with
      | zero =>
          refine ⟨u.progress, ?_⟩
          cases u
          rfl
      | succ j =>
          simpa [runOpsR, applyOpR] using ih { u with progress := e } j

/-- Helper: every proper initial segment of one upload's operations leaves its
record non-terminal. -/
theorem idOps_take_nonterminal (id : String) (ev : List Nat)
    (oc : Except String DriveFileInfo) (k : Nat)
    (hk : k < (idOps id ev oc).length) :
    isTerminalO (runOpsR none ((idOps id ev oc).take k)) = false := by
  have hlen : (idOps id ev oc).length = ev.length + 3 := by
    simp [idOps, taskOps]
  match k with
  | 0 => rfl
  | 1 => rfl
  | (k + 2) =>
      have hk' : k ≤ ev.length := by omega
      have htake :
          (idOps id ev oc).take (k + 2) =
            StoreOp.create id :: StoreOp.setInProgress id ::
              ((ev.map (StoreOp.setProgress id)).take k) := by
        simp only [idOps, taskOps, List.take_succ_cons]
        congr 1
        congr 1
        rw [List.take_append_of_le_length (by simpa using hk')]
      rw [htake]
      show isTerminalO (runOpsR (some { pendingRecord with status := .in_progress })
        ((ev.map (StoreOp.setProgress id)).take k)) = false
      obtain ⟨p, hp⟩ :=
        runOpsR_setProgress_take id ev { pendingRecord with status := .in_progress } k
      rw [hp]
      rfl

/-- Helper: running all of one upload's operations ends in a terminal record. -/
theorem idOps_terminal (id : String) (ev : List Nat)
    (oc : Except String DriveFileInfo) :
    isTerminalO (runOpsR none (idOps id ev oc)) = true := by
  have h1 : runOpsR none (idOps id ev oc) =
      runOpsR (some { pendingRecord with status := .in_progress })
        (ev.map (StoreOp.setProgress id) ++
          [match oc with
           | .ok d => StoreOp.finishDone id d
           | .error msg => StoreOp.finishError id msg]) := rfl
  rw [h1, runOpsR_append]
  obtain ⟨p, hp⟩ :=
    runOpsR_setProgress_take id ev { pendingRecord with status := .in_progress }
      (ev.map (StoreOp.setProgress id)).length
  rw [List.take_length] at hp
  rw [hp]
  cases oc <;> rfl

/-- C1: for every accepted single-file submission (authenticated caller, file
present) the pending record for the fresh uploadId is already in the store that
is paired with the synchronous acknowledgment, so polling that uploadId right
after submit returns 200 and never NotFound, and the acknowledgment body
carries success, the uploadId, status pending and progress 0. -/
theorem submit_ack_record_present (f : MulterFile) (uploadId : String) (s : Store) :
    (postUpload true (some f) uploadId s).1 uploadId = some pendingRecord ∧
    (getProgress (postUpload true (some f) uploadId s).1 uploadId).httpStatus = 200 ∧
    (getProgress (postUpload true (some f) uploadId s).1 uploadId).httpStatus ≠ 404 ∧
    (postUpload true (some f) uploadId s).2.1.success = true ∧
    (postUpload true (some f) uploadId s).2.1.uploadId = some uploadId ∧
    (postUpload true (some f) uploadId s).2.1.status = some UploadStatus.pending ∧
    (postUpload true (some f) uploadId s).2.1.progress = some 0 := by
  have hs : (postUpload true (some f) uploadId s).1 uploadId = some pendingRecord := by
    simp [postUpload, applyOp, StoreOp.targets, applyOpR]
  refine ⟨hs, ?_, ?_, rfl, rfl, rfl, rfl⟩ <;> simp [getProgress, hs]

/-- C9: an unauthenticated submission is rejected synchronously with a 401
response whose body has success false, the store is left unchanged (no
UploadRecord is created), and no background task is scheduled, so the
temporary file is never touched by the orchestrator. -/
theorem unauthenticated_rejected (file : Option MulterFile) (uploadId : String)
    (s : Store) :
    (postUpload false file uploadId s).1 = s ∧
    (postUpload false file uploadId s).2.1.httpStatus = 401 ∧
    (postUpload false file uploadId s).2.1.success = false ∧
    (postUpload false file uploadId s).2.2 = none := by
  exact ⟨rfl, rfl, rfl, rfl⟩

/-- C10: polling a known uploadId returns 200 with success true and the
uploadId echoed back, whatever the stored record's status (error included);
only an unknown uploadId yields a non-200 (404) response with success false. -/
theorem poll_success_for_known_id (s : Store) (uploadId : String)
    (r : UploadRecord) (h : s uploadId = some r) :
    ((getProgress s uploadId).httpStatus = 200 ∧
     (getProgress s uploadId).success = true ∧
     (getProgress s uploadId).uploadId = some uploadId ∧
     (getProgress s uploadId).record = some r) ∧
    ∀ other : String, s other = none →
      (getProgress s other).httpStatus = 404 ∧
      (getProgress s other).success = false := by
  constructor
  · simp [getProgress, h]
  · intro o ho
    simp [getProgress, ho]

/-- C10 witness: a store holding a failed upload answers 200 and success true
at its id, and 404 with success false at an unknown id. -/
theorem poll_success_for_known_id_witness :
    ((getProgress storeW "u1").httpStatus = 200 ∧
     (getProgress storeW "u1").success = true ∧
     (getProgress storeW "u1").uploadId = some "u1" ∧
     (getProgress storeW "u1").record = some (errorRecord 40 "boom")) ∧
    ((getProgress storeW "nope").httpStatus = 404 ∧
     (getProgress storeW "nope").success = false) :=
  ⟨(poll_success_for_known_id storeW "u1" (errorRecord 40 "boom") rfl).1,
   (poll_success_for_known_id storeW "u1" (errorRecord 40 "boom") rfl).2 "nope" rfl⟩

/-- C6: when the detached transfer fails, the catch branch rewrites the record
to status error with the error message, and its progress equals the last
progress value recorded before the failure, preserved rather than reset to 0. -/
theorem error_preserves_progress (s : Store) (uploadId msg : String)
    (r : UploadRecord) (h : s uploadId = some r) :
    applyOp s (StoreOp.finishError uploadId msg) uploadId =
      some { status := .error, progress := r.progress, file := none,
             error := some msg } := by
  simp [applyOp, StoreOp.targets, applyOpR, h, errorRecord, jsOr0_eq]

/-- C6 witness: failing an upload whose record sits at 40 percent leaves the
error record at 40 percent with the message. -/
theorem error_preserves_progress_witness :
    applyOp storeW (StoreOp.finishError "u1" "network fault") "u1" =
      some { status := .error, progress := 40, file := none,
             error := some "network fault" } := by
  have h := error_preserves_progress storeW "u1" "network fault"
    (errorRecord 40 "boom") rfl
  simpa [errorRecord, jsOr0_eq] using h

/-- C4 counterexample: after 1 byte of a 200-byte transfer the listener stores
percentage 1, while floor of bytesSeen / N * 100 is 0 (both as natural-number
division and as the rational floor), so the stored percentage is not the floor
of the exact percentage; and for a declared length of 0 the end-of-stream
notification stores percentage 100, so percentage reporting is not skipped in
the degenerate case either. -/
theorem progress_floor_counterexample :
    listenerPct 200 (.update 1) = 1 ∧ 1 * 100 / 200 = 0 ∧
    ⌊((1 : ℚ) / 200) * 100⌋ = 0 ∧
    listenerPct 200 (.update 1) ≠ 1 * 100 / 200 ∧
    listenerPct 0 PsEvent.ended = 100 ∧
    listenerPct 0 PsEvent.ended ≠ 0 := by
  have h1 : listenerPct 200 (.update 1) = 1 := by
    rw [listenerPct_update_eq]
    norm_num
  have h2 : ((1 : ℚ) / 200) * 100 = 1 / 2 := by norm_num
  have h3 : ⌊((1 : ℚ) / 2)⌋ = 0 := by
    rw [Int.floor_eq_zero_iff]
    constructor <;> norm_num
  have h4 : listenerPct 0 PsEvent.ended = 100 := listenerPct_ended_eq 0
  exact ⟨h1, by norm_num, by rw [h2, h3], by rw [h1]; norm_num, h4,
    by rw [h4]; norm_num⟩

/-- C4 amended: each delivered progress value stored by the listener is
JavaScript Math.round of the notification's percentage, rounding half up to
the nearest integer (not the floor): intermediate notifications carry
bytesSeen / N * 100, guarded to 0 when the declared length N is zero so that
no division by zero occurs, while the final end-of-stream notification carries
100 regardless of N; the stored value never exceeds 100 while bytes seen stay
within N. -/
theorem progress_round_half_up (N b : Nat) :
    (N ≠ 0 → (listenerPct N (.update b) : ℤ) = ⌊(b : ℚ) * 100 / (N : ℚ) + 1/2⌋) ∧
    listenerPct 0 (.update b) = 0 ∧
    listenerPct N .ended = 100 ∧
    (b ≤ N → listenerPct N (.update b) ≤ 100) := by
  refine ⟨?_, ?_, listenerPct_ended_eq N, listenerPct_update_le_100 N b⟩
  · intro hN
    have hq : (0 : ℚ) ≤ (b : ℚ) * 100 / (N : ℚ) + 1/2 := by positivity
    have hps : psPercentage N (.update b) = (b : ℚ) * 100 / (N : ℚ) := by
      simp [psPercentage, hN]
    unfold listenerPct jsMathRound
    rw [hps]
    exact Int.natCast_floor_eq_floor hq
  · unfold listenerPct jsMathRound psPercentage
    norm_num

/-- C4 amended witness: at 1 byte of 200 the stored value is the half-up
rounding of the exact percentage, a zero-length intermediate notification
stores 0, the zero-length end-of-stream notification stores 100, and the bound
holds at this input. -/
theorem progress_round_half_up_witness :
    (listenerPct 200 (.update 1) : ℤ) = ⌊(1 : ℚ) * 100 / 200 + 1/2⌋ ∧
    listenerPct 0 (.update 1) = 0 ∧
    listenerPct 0 PsEvent.ended = 100 ∧
    listenerPct 200 (.update 1) ≤ 100 := by
  refine ⟨?_, (progress_round_half_up 0 1).2.1, (progress_round_half_up 0 1).2.2.1,
    (progress_round_half_up 200 1).2.2.2 (by norm_num)⟩
  have h := (progress_round_half_up 200 1).1 (by norm_num)
  simpa using h

/-- Invariant of a single record: a done record carries the provider file
object and no error message, an error record carries an error message and no
file object. -/
def recordInv (u : UploadRecord) : Prop :=
  (u.status = .done → u.file.isSome = true ∧ u.error = none) ∧
  (u.status = .error → u.error.isSome = true ∧ u.file = none)

/-- Helper: every store operation preserves the record invariant. -/
theorem recordInv_applyOpR (r : Option UploadRecord) (op : StoreOp)
    (h : ∀ u, r = some u → recordInv u) :
    ∀ u, applyOpR r op = some u → recordInv u := by
  intro u hu
  cases op with
  | create _ =>
      simp [applyOpR] at hu
      subst hu
      constructor <;> intro h' <;> simp [pendingRecord] at h'
  | setInProgress _ =>
      cases r with
      | none => simp [applyOpR] at hu
      | some v =>
          simp [applyOpR] at hu
          subst hu
          constructor <;> intro h' <;> simp at h'
  | setProgress _ p =>
      cases r with
      | none => simp [applyOpR] at hu
      | some v =>
          simp [applyOpR] at hu
          subst hu
          have hv := h v rfl
          exact ⟨fun h' => hv.1 h', fun h' => hv.2 h'⟩
  | finishDone _ d =>
      simp [applyOpR] at hu
      subst hu
      constructor <;> intro h' <;> simp [doneRecord] at h' ⊢
  | finishError _ msg =>
      cases r with
      | none => simp [applyOpR] at hu
      | some v =>
          simp [applyOpR] at hu
          subst hu
          constructor <;> intro h' <;> simp [errorRecord] at h' ⊢

/-- Helper: the record invariant holds at every key after any trace, provided
it held initially. -/
theorem applyOps_recordInv (tr : List StoreOp) (s : Store)
    (hs : ∀ id u, s id = some u → recordInv u) :
    ∀ id u, applyOps s tr id = some u → recordInv u := by
  induction tr generalizing s with
  | nil => exact hs
  | cons op ops ih =>
      refine ih (applyOp s op) ?_
      intro id u hu
      by_cases h : op.targets = id
      · rw [applyOp] at hu
        simp only [h, if_pos] at hu
        exact recordInv_applyOpR (s id) op (fun v hv => hs id v hv) u (by simpa using hu)
      · rw [applyOp] at hu
        simp only [if_neg h] at hu
        exact hs id u hu

/-- C2: in every store reachable by the system's operations from a store
satisfying the record invariant, a record in a terminal state carries exactly
one of the two payload fields: done records carry the provider file object
(identifier, name, view link, download link) and no error message; error
records carry an error message and no file object; never both, never neither. -/
theorem terminal_record_exclusive (s : Store) (tr : List StoreOp) (id : String)
    (u : UploadRecord)
    (hs : ∀ i v, s i = some v → recordInv v)
    (hu : applyOps s tr id = some u)
    (hterm : u.status.isTerminal = true) :
    (u.status = .done → u.file.isSome = true ∧ u.error = none) ∧
    (u.status = .error → u.error.isSome = true ∧ u.file = none) ∧
    (u.file.isSome = true ∨ u.error.isSome = true) ∧
    ¬(u.file.isSome = true ∧ u.error.isSome = true) := by
  have hinv := applyOps_recordInv tr s hs id u hu
  refine ⟨hinv.1, hinv.2, ?_, ?_⟩
  · cases hst : u.status with
    | done => exact Or.inl (hinv.1 hst).1
    | error => exact Or.inr (hinv.2 hst).1
    | pending => rw [hst] at hterm; simp [UploadStatus.isTerminal] at hterm
    | in_progress => rw [hst] at hterm; simp [UploadStatus.isTerminal] at hterm
  · cases hst : u.status with
    | done =>
        intro hb
        have := (hinv.1 hst).2
        rw [this] at hb
        simp at hb
    | error =>
        intro hb
        have := (hinv.2 hst).2
        rw [this] at hb
        simp at hb
    | pending => rw [hst] at hterm; simp [UploadStatus.isTerminal] at hterm
    | in_progress => rw [hst] at hterm; simp [UploadStatus.isTerminal] at hterm

/-- C2 witness: a completed run on the empty store ends in a done record
carrying the file object and no error message. -/
theorem terminal_record_exclusive_witness :
    ((doneRecord dfA).status = .done →
      (doneRecord dfA).file.isSome = true ∧ (doneRecord dfA).error = none) ∧
    ((doneRecord dfA).status = .error →
      (doneRecord dfA).error.isSome = true ∧ (doneRecord dfA).file = none) ∧
    ((doneRecord dfA).file.isSome = true ∨ (doneRecord dfA).error.isSome = true) ∧
    ¬((doneRecord dfA).file.isSome = true ∧ (doneRecord dfA).error.isSome = true) :=
  terminal_record_exclusive emptyStore (idOps "u1" [25, 50] (.ok dfA)) "u1"
    (doneRecord dfA)
    (fun i v hv => by simp [emptyStore] at hv)
    (by decide)
    (by decide)

/-- C3: terminal states are sticky.  In any system trace interleaving an
upload's own operations (which, per the code, are its synchronous insert
followed by its task's operations, possibly still incomplete) with operations
on other ids, once the record of a freshly created uploadId is terminal, the
remainder of the trace leaves that record unchanged. -/
theorem terminal_sticky (s : Store) (id : String) (ev : List Nat)
    (oc : Except String DriveFileInfo) (tr tl : List StoreOp) (r : UploadRecord)
    (k : Nat)
    (hfresh : s id = none)
    (hshape : opsFor id (tr ++ tl) = (idOps id ev oc).take k)
    (hr : applyOps s tr id = some r)
    (hterm : r.status.isTerminal = true) :
    applyOps s (tr ++ tl) id = some r := by
  have hrun1 : runOpsR none (opsFor id tr) = some r := by
    have h := applyOps_eq_runOpsR tr s id
    rw [hfresh] at h
    rw [← h]
    exact hr
  have hsplit : opsFor id tr ++ opsFor id tl = (idOps id ev oc).take k := by
    rw [← opsFor_append]
    exact hshape
  have hlens : (opsFor id tr).length + (opsFor id tl).length =
      min k (idOps id ev oc).length := by
    have h := congrArg List.length hsplit
    simpa [List.length_append, List.length_take] using h
  have hlen_le_k : (opsFor id tr).length ≤ k := by omega
  have hp1 : opsFor id tr = (idOps id ev oc).take (opsFor id tr).length := by
    calc opsFor id tr
        = (opsFor id tr ++ opsFor id tl).take (opsFor id tr).length :=
          (List.take_left _ _).symm
      _ = ((idOps id ev oc).take k).take (opsFor id tr).length := by rw [hsplit]
      _ = (idOps id ev oc).take (min (opsFor id tr).length k) :=
          List.take_take _ _ _
      _ = (idOps id ev oc).take (opsFor id tr).length := by
          rw [Nat.min_eq_left hlen_le_k]
  have hlen_le : (opsFor id tr).length ≤ (idOps id ev oc).length := by
    have h := congrArg List.length hp1
    simp only [List.length_take] at h
    omega
  have hnotlt : ¬ (opsFor id tr).length < (idOps id ev oc).length := by
    intro hlt
    have hnt := idOps_take_nonterminal id ev oc (opsFor id tr).length hlt
    rw [← hp1, hrun1] at hnt
    simp only [isTerminalO, Option.elim] at hnt
    simp [hterm] at hnt
  have hlen_eq : (opsFor id tr).length = (idOps id ev oc).length := by omega
  have hp2nil : opsFor id tl = [] := by
    have : (opsFor id tl).length = 0 := by omega
    exact List.length_eq_zero.mp this
  have hfinal := applyOps_eq_runOpsR (tr ++ tl) s id
  rw [hfresh, opsFor_append, hp2nil, List.append_nil] at hfinal
  rw [hfinal, hrun1]

/-- C3 witness: after a finished upload on id u1, a later operation of a
sibling upload u2 leaves u1's done record untouched. -/
theorem terminal_sticky_witness :
    applyOps emptyStore
      ((idOps "u1" [50] (.ok dfA) ++ [StoreOp.create "u2"]) ++
        [StoreOp.setProgress "u2" 10]) "u1" = some (doneRecord dfA) :=
  terminal_sticky emptyStore "u1" [50] (.ok dfA)
    (idOps "u1" [50] (.ok dfA) ++ [StoreOp.create "u2"])
    [StoreOp.setProgress "u2" 10] (doneRecord dfA) 4 rfl (by decide) (by decide)
    (by decide)

/-- Helper: a record trace always starts with its initial value. -/
theorem recTrace_cons_shape (r : Option UploadRecord) (l : List StoreOp) :
    ∃ t, recTrace r l = r :: t := by
  cases l with
  | nil => exact ⟨[], rfl⟩
  | cons op ops => exact ⟨recTrace (applyOpR r op) ops, rfl⟩

/-- Helper: along the listener writes followed by the one terminal assignment,
the record's progress values are nondecreasing and stay at most 100. -/
theorem trace_chain_le (id : String) (es : List Nat) (u : UploadRecord)
    (oc : Except String DriveFileInfo)
    (hchain : es.Chain' (· ≤ ·))
    (hhead : ∀ e ∈ es.head?, u.progress ≤ e)
    (hbound : ∀ e ∈ es, e ≤ 100) (hu : u.progress ≤ 100) :
    (((recTrace (some u) ((es.map (StoreOp.setProgress id)) ++
        [match oc with
         | .ok d => StoreOp.finishDone id d
         | .error msg => StoreOp.finishError id msg])).map progressOf).Chain'
        (· ≤ ·)) ∧
    ∀ p ∈ (recTrace (some u) ((es.map (StoreOp.setProgress id)) ++
        [match oc with
         | .ok d => StoreOp.finishDone id d
         | .error msg => StoreOp.finishError id msg])).map progressOf,
      p ≤ 100 := by
  induction es generalizing u with
  | nil =>
      cases oc with
      | ok d =>
          constructor
          · simp [recTrace, applyOpR, progressOf, doneRecord, hu]
          · intro p hp
            simp [recTrace, applyOpR, progressOf, doneRecord] at hp
            rcases hp with hp | hp <;> omega
      | error m =>
          constructor
          · simp [recTrace, applyOpR, progressOf, errorRecord, jsOr0_eq]
          · intro p hp
            simp [recTrace, applyOpR, progressOf, errorRecord, jsOr0_eq] at hp
            omega
  | cons e es ih =>
      have hu' : ({ u with progress := e } : UploadRecord).progress ≤ 100 :=
        hbound e (by simp)
      have hchain' : es.Chain' (· ≤ ·) := hchain.tail
      have hhead' : ∀ x ∈ es.head?, ({ u with progress := e } : UploadRecord).progress ≤ x := by
        intro x hx
        exact (List.chain'_cons'.mp hchain).1 x hx
      have hbound' : ∀ x ∈ es, x ≤ 100 := fun x hx => hbound x (by simp [hx])
      obtain ⟨hc, hb⟩ := ih { u with progress := e } hchain' hhead' hbound' hu'
      have hstep : recTrace (some u) (((e :: es).map (StoreOp.setProgress id)) ++
          [match oc with
           | .ok d => StoreOp.finishDone id d
           | .error msg => StoreOp.finishError id msg]) =
          some u :: recTrace (some { u with progress := e })
            ((es.map (StoreOp.setProgress id)) ++
              [match oc with
               | .ok d => StoreOp.finishDone id d
               | .error msg => StoreOp.finishError id msg]) := rfl
      rw [hstep]
      obtain ⟨t, ht⟩ := recTrace_cons_shape (some { u with progress := e })
        ((es.map (StoreOp.setProgress id)) ++
          [match oc with
           | .ok d => StoreOp.finishDone id d
           | .error msg => StoreOp.finishError id msg])
      constructor
      · rw [List.map_cons, List.chain'_cons']
        refine ⟨?_, hc⟩
        intro h hh
        rw [ht] at hh
        simp [progressOf] at hh
        subst hh
        exact hhead e (by simp)
      · intro p hp
        rw [List.map_cons] at hp
        rcases List.mem_cons.mp hp with hp | hp
        · subst hp
          exact hu
        · exact hb p hp

/-- Helper: the stored values of a whole stream's notifications are
nondecreasing and bounded by 100, given cumulative byte counts within the
declared length. -/
theorem listenerEvents_stream_chain (N : Nat) (bs : List Nat) (reachedEnd : Bool)
    (hmono : bs.Chain' (· ≤ ·)) (hle : ∀ b ∈ bs, b ≤ N) :
    (listenerEvents N (streamEvents bs reachedEnd)).Chain' (· ≤ ·) ∧
    ∀ p ∈ listenerEvents N (streamEvents bs reachedEnd), p ≤ 100 := by
  have hupd : ∀ p ∈ (bs.map PsEvent.update).map (listenerPct N), p ≤ 100 := by
    intro p hp
    rw [List.map_map] at hp
    obtain ⟨b, hb, rfl⟩ := List.mem_map.mp hp
    exact listenerPct_update_le_100 N b (hle b hb)
  constructor
  · rw [listenerEvents, streamEvents, List.map_append]
    apply List.Chain'.append
    · rw [List.map_map, List.chain'_map]
      exact hmono.imp fun a b h => listenerPct_update_mono N h
    · cases reachedEnd <;> simp
    · intro x hx y hy
      cases reachedEnd with
      | false => simp at hy
      | true =>
          simp only [if_pos, List.map_cons, List.map_nil, List.head?_cons,
            Option.mem_def, Option.some_inj] at hy
          obtain ⟨hne, hx'⟩ := List.mem_getLast?_eq_getLast hx
          subst hx'
          rw [← hy, listenerPct_ended_eq]
          exact hupd _ (List.getLast_mem hne)
  · intro p hp
    rw [listenerEvents, streamEvents, List.map_append] at hp
    rcases List.mem_append.mp hp with hp | hp
    · exact hupd p hp
    · cases reachedEnd with
      | false => simp at hp
      | true =>
          simp only [if_pos, List.map_cons, List.map_nil, List.mem_singleton] at hp
          rw [hp, listenerPct_ended_eq]

/-- C5: for every upload run, the record's progress values form a
monotonically nondecreasing sequence of integers between 0 and 100, from
creation through the terminal assignment, given that the byte counts observed
by the stream's intermediate notifications are cumulative (nondecreasing) and
never exceed the declared size; the run may or may not include the final
end-of-stream notification, which stores 100. -/
theorem progress_monotone_bounded (id : String) (N : Nat) (bs : List Nat)
    (reachedEnd : Bool) (oc : Except String DriveFileInfo)
    (hmono : bs.Chain' (· ≤ ·)) (hle : ∀ b ∈ bs, b ≤ N) :
    (runProgressSeq id (listenerEvents N (streamEvents bs reachedEnd)) oc).Chain'
      (· ≤ ·) ∧
    ∀ p ∈ runProgressSeq id (listenerEvents N (streamEvents bs reachedEnd)) oc,
      p ≤ 100 := by
  have hseq : runProgressSeq id (listenerEvents N (streamEvents bs reachedEnd)) oc =
      0 :: 0 :: ((recTrace (some { pendingRecord with status := .in_progress })
        (((listenerEvents N (streamEvents bs reachedEnd)).map
            (StoreOp.setProgress id)) ++
          [match oc with
           | .ok d => StoreOp.finishDone id d
           | .error msg => StoreOp.finishError id msg])).map progressOf) := rfl
  obtain ⟨hchain, hbound⟩ := listenerEvents_stream_chain N bs reachedEnd hmono hle
  have hhead : ∀ e ∈ (listenerEvents N (streamEvents bs reachedEnd)).head?,
      ({ pendingRecord with status := .in_progress } : UploadRecord).progress ≤ e := by
    intro e _
    exact Nat.zero_le e
  obtain ⟨hc, hb⟩ := trace_chain_le id (listenerEvents N (streamEvents bs reachedEnd))
    { pendingRecord with status := .in_progress } oc hchain hhead hbound
    (by simp [pendingRecord])
  rw [hseq]
  constructor
  · rw [List.chain'_cons']
    refine ⟨fun h _ => Nat.zero_le h, ?_⟩
    rw [List.chain'_cons']
    exact ⟨fun h _ => Nat.zero_le h, hc⟩
  · intro p hp
    rcases List.mem_cons.mp hp with hp | hp
    · omega
    rcases List.mem_cons.mp hp with hp | hp
    · omega
    · exact hb p hp

/-- C5 witness: the zero-length upload, whose only stream notification is the
final end-of-stream one storing 100, still yields a nondecreasing progress
sequence bounded by 100 through its terminal assignment. -/
theorem progress_monotone_bounded_witness :
    (runProgressSeq "u1" (listenerEvents 0 (streamEvents [] true)) (.ok dfA)).Chain'
      (· ≤ ·) ∧
    ∀ p ∈ runProgressSeq "u1" (listenerEvents 0 (streamEvents [] true)) (.ok dfA),
      p ≤ 100 :=
  progress_monotone_bounded "u1" 0 [] true (.ok dfA) (by simp) (by simp)

/-- Helper: after an unlink the path no longer exists. -/
theorem fsExists_unlink (fs : FsState) (p : String) :
    fsExists (fsUnlink fs p) p = false := by
  simp [fsExists, fsUnlink]

/-- C7: for every submission whose transfer started, the temp path is unlinked
exactly once by the background task on both exit paths (success and failure),
the path no longer exists afterwards, and the task's run leaves the record in
a terminal state, so the file is gone once the record is terminal. -/
theorem temp_file_cleanup_once (path id : String) (ev : List Nat)
    (oc : Except String DriveFileInfo) (fs : FsState)
    (hin : fsExists fs path = true) :
    (taskFs path oc fs).2 = 1 ∧
    fsExists (taskFs path oc fs).1 path = false ∧
    isTerminalO (runOpsR none (idOps id ev oc)) = true := by
  refine ⟨?_, ?_, idOps_terminal id ev oc⟩
  · cases oc with
    | ok d => rfl
    | error m => simp [taskFs, hin]
  · cases oc with
    | ok d => exact fsExists_unlink fs path
    | error m =>
        simp only [taskFs, hin, if_pos]
        exact fsExists_unlink fs path

/-- C7 witness: a failing transfer of a file present on disk unlinks it once,
leaves it absent, and its record ends terminal. -/
theorem temp_file_cleanup_once_witness :
    (taskFs "uploads/tmp-a" (.error "network fault") ["uploads/tmp-a"]).2 = 1 ∧
    fsExists (taskFs "uploads/tmp-a" (.error "network fault")
      ["uploads/tmp-a"]).1 "uploads/tmp-a" = false ∧
    isTerminalO (runOpsR none (idOps "u1" [30] (.error "network fault"))) = true :=
  temp_file_cleanup_once "uploads/tmp-a" "u1" [30] (.error "network fault")
    ["uploads/tmp-a"] (by decide)

/-- Helper: the kept and dropped parts of a filtered list partition its length. -/
theorem filter_partition_length (l : List MultiResult) :
    (l.filter fun r => r.success).length +
      (l.filter fun r => !r.success).length = l.length := by
  induction l with
  | nil => rfl
  | cons x xs ih =>
      cases hx : x.success
      · simp [List.filter_cons, hx]
        omega
      · simp [List.filter_cons, hx]
        omega

/-- Helper: the per-file result object succeeds exactly when its own transfer
outcome does. -/
theorem perFileResult_success (f : MulterFile) (oc : Except String DriveFileInfo) :
    (perFileResult f oc).success = ocSuccess oc := by
  cases oc <;> rfl

/-- Helper: the successful aggregate entries are exactly the per-file results
of the files whose own outcome succeeded. -/
theorem multi_filter_ok (l : List (MulterFile × Except String DriveFileInfo)) :
    ((l.map fun p => perFileResult p.1 p.2).filter fun r => r.success) =
      (l.filter fun p => ocSuccess p.2).map fun p => perFileResult p.1 p.2 := by
  induction l with
  | nil => rfl
  | cons x xs ih =>
      cases hx : ocSuccess x.2
      · simp [List.filter_cons, perFileResult_success, hx, ih]
      · simp [List.filter_cons, perFileResult_success, hx, ih]

/-- Helper: the failed aggregate entries are exactly the per-file results of
the files whose own outcome failed. -/
theorem multi_filter_fail (l : List (MulterFile × Except String DriveFileInfo)) :
    ((l.map fun p => perFileResult p.1 p.2).filter fun r => !r.success) =
      (l.filter fun p => !ocSuccess p.2).map fun p => perFileResult p.1 p.2 := by
  induction l with
  | nil => rfl
  | cons x xs ih =>
      cases hx : ocSuccess x.2
      · simp [List.filter_cons, perFileResult_success, hx, ih]
      · simp [List.filter_cons, perFileResult_success, hx, ih]

/-- C8: for a bulk submission of N at least 1 files with one outcome each, the
aggregate satisfies successful.length + failed.length = N, the overall success
flag equals failed.length = 0, each aggregate entry is the per-file result of
that file's own outcome alone (one failure neither aborts nor rolls back
siblings), and an empty file list is rejected as a 400 validation error. -/
theorem bulk_aggregate_counts (files : List MulterFile)
    (ocs : List (Except String DriveFileInfo))
    (hne : files ≠ []) (hlen : ocs.length = files.length) :
    (uploadMultiple true files ocs).successful.length +
      (uploadMultiple true files ocs).failed.length = files.length ∧
    ((uploadMultiple true files ocs).success = true ↔
      (uploadMultiple true files ocs).failed.length = 0) ∧
    (uploadMultiple true files ocs).successful =
      ((files.zip ocs).filter fun p => ocSuccess p.2).map
        (fun p => perFileResult p.1 p.2) ∧
    (uploadMultiple true files ocs).failed =
      ((files.zip ocs).filter fun p => !ocSuccess p.2).map
        (fun p => perFileResult p.1 p.2) ∧
    (uploadMultiple true [] ocs).httpStatus = 400 ∧
    (uploadMultiple true [] ocs).success = false := by
  have hne' : files.isEmpty = false := by
    cases files with
    | nil => exact absurd rfl hne
    | cons f fs => rfl
  have hzip : (files.zip ocs).length = files.length := by
    rw [List.length_zip, hlen, Nat.min_self]
  have hresp : uploadMultiple true files ocs =
      { httpStatus := 200,
        success := (((files.zip ocs).map fun p => perFileResult p.1 p.2).filter
          fun r => !r.success).length == 0,
        successful := ((files.zip ocs).map fun p => perFileResult p.1 p.2).filter
          fun r => r.success,
        failed := ((files.zip ocs).map fun p => perFileResult p.1 p.2).filter
          fun r => !r.success,
        error := none } := by
    simp [uploadMultiple, hne']
  refine ⟨?_, ?_, ?_, ?_, rfl, rfl⟩
  · rw [hresp]
    have h := filter_partition_length ((files.zip ocs).map fun p => perFileResult p.1 p.2)
    simpa [List.length_map, hzip] using h
  · rw [hresp]
    simp [Nat.beq_eq_true_eq]
  · rw [hresp]
    exact multi_filter_ok (files.zip ocs)
  · rw [hresp]
    exact multi_filter_fail (files.zip ocs)

/-- C8 witness: two files, one succeeding and one rejected, aggregate to one
successful and one failed entry with overall success false; an empty list is a
400 validation error. -/
theorem bulk_aggregate_counts_witness :
    (uploadMultiple true [mfA, mfB] [.ok dfA, .error "quota"]).successful.length +
      (uploadMultiple true [mfA, mfB] [.ok dfA, .error "quota"]).failed.length = 2 ∧
    ((uploadMultiple true [mfA, mfB] [.ok dfA, .error "quota"]).success = true ↔
      (uploadMultiple true [mfA, mfB] [.ok dfA, .error "quota"]).failed.length = 0) ∧
    (uploadMultiple true [mfA, mfB] [.ok dfA, .error "quota"]).successful =
      (([mfA, mfB].zip [.ok dfA, .error "quota"]).filter fun p => ocSuccess p.2).map
        (fun p => perFileResult p.1 p.2) ∧
    (uploadMultiple true [mfA, mfB] [.ok dfA, .error "quota"]).failed =
      (([mfA, mfB].zip [.ok dfA, .error "quota"]).filter fun p => !ocSuccess p.2).map
        (fun p => perFileResult p.1 p.2) ∧
    (uploadMultiple true [] [.ok dfA, .error "quota"]).httpStatus = 400 ∧
    (uploadMultiple true [] [.ok dfA, .error "quota"]).success = false :=
  bulk_aggregate_counts [mfA, mfB] [.ok dfA, .error "quota"]
    (by simp) rfl

end DriveUpload
